import Mathlib

/-!
Verification of the macro-preprocessing front end (erl_pp).

The development shallowly embeds the two source files of the repository:

* directives.rs : typed directive model (ten directive kinds), the macro
  expansion algorithm (Define::expand) including the stringification
  operator, and per-kind Display and ReadFrom implementations.
* preprocessor.rs : the driver (Preprocessor::next_token and
  try_read_directive) together with the directive readers of the older
  module layout.

The crate modules token_reader.rs and types.rs are referenced by the two
files above but are not part of the provided sources; the few operations
needed from them (the transactional token reader, MacroName and
MacroVariables) are modelled from the specification and are marked
as such in their doc comments.

Conventions of the embedding:

* Rust Result errors become the constructors PErr.invalidInput and
  PErr.unexpectedEof of an explicit error type.
* Rust panics (assert!, Option::unwrap on None, unimplemented!) abort the
  computation with the distinguished constructor PErr.panicked, keeping
  panics observably different from ordinary error returns.
* Source positions are abstracted to natural numbers (token offsets);
  the code only ever copies positions around, it never computes with them.
-/

/-- Symbol values of the lexer (erl_tokenize::values::Symbol), restricted to
the symbols the preprocessor inspects plus representatives for ordinary
code symbols. -/
inductive SymVal
  | hyphen
  | openParen
  | closeParen
  | comma
  | dot
  | doubleQuestion
  | plus
  deriving DecidableEq

/-- Source text of a symbol. -/
def SymVal.text : SymVal → String
  | .hyphen => "-"
  | .openParen => "("
  | .closeParen => ")"
  | .comma => ","
  | .dot => "."
  | .doubleQuestion => "??"
  | .plus => "+"

/-- Error outcomes of the embedded computations.  The first two mirror the
ErrorKind values produced through track_panic!/track_try!; panicked models a
Rust panic (assert!, unwrap, unimplemented!), which the Rust code does not
return as a value at all. -/
inductive PErr
  | invalidInput
  | unexpectedEof
  | panicked (msg : String)
  deriving DecidableEq

deriving instance DecidableEq for Except

namespace directives

/-- Lexical tokens (erl_tokenize::LexicalToken): the trivia-free token kinds,
each carrying its source text and start position.  String tokens carry both
their value and their literal text (with quotes). -/
inductive LTok
  | atom (txt : String) (pos : Nat)
  | var (txt : String) (pos : Nat)
  | str (value : String) (txt : String) (pos : Nat)
  | integer (value : Nat) (pos : Nat)
  | symbol (s : SymVal) (pos : Nat)
  deriving DecidableEq

/-- Literal source text of a token (LexicalToken::text). -/
def LTok.text : LTok → String
  | .atom t _ => t
  | .var t _ => t
  | .str _ t _ => t
  | .integer v _ => toString v
  | .symbol s _ => s.text

/-- Start position of a token (PositionRange::start_position). -/
def LTok.start_position : LTok → Nat
  | .atom _ p => p
  | .var _ p => p
  | .str _ _ p => p
  | .integer _ p => p
  | .symbol _ p => p

/-- Test for a specific symbol token (as_symbol_token combined with a value
comparison). -/
def LTok.isSymbol (s : SymVal) : LTok → Bool
  | .symbol s2 _ => decide (s2 = s)
  | _ => false

/-- Construction of a synthesized string token
(StringToken::from_value); the literal text is the quoted value (character
escaping of the real lexer is irrelevant to every property proved here). -/
def StringToken.from_value (v : String) (p : Nat) : LTok :=
  .str v ("\x22" ++ v ++ "\x22") p

/-- Modelled from the spec: MacroName of the missing module types.rs.  A
macro name is either an atom-valued or a variable-valued token; its identity
is the underlying text. -/
inductive MacroName
  | atom (tok : LTok)
  | var (tok : LTok)
  deriving DecidableEq

/-- Text of a macro name. -/
def MacroName.text : MacroName → String
  | .atom t => t.text
  | .var t => t.text

/-- Modelled from the spec: MacroVariables of the missing module types.rs.
It records the parenthesis tokens and the ordered variable tokens of a
parameter list. -/
structure MacroVariables where
  open_paren : LTok
  vars : List LTok
  close_paren : LTok
  deriving DecidableEq

/-- Modelled from the spec: Display for MacroVariables renders the
parenthesized, comma-separated parameter list. -/
def MacroVariables.display (v : MacroVariables) : String :=
  "(" ++ String.intercalate "," (v.vars.map LTok.text) ++ ")"

/-- The Define directive (struct Define of directives.rs). -/
structure Define where
  _hyphen : LTok
  _define : LTok
  _open_paren : LTok
  name : MacroName
  variables' : Option MacroVariables
  _comma : LTok
  replacement : List LTok
  _close_paren : LTok
  _dot : LTok
  deriving DecidableEq

/-- Binding lookup mirroring HashMap collected from an iterator of pairs:
a later pair with the same key overwrites an earlier one, so lookup returns
the value of the last matching pair. -/
def hashMapGet (binds : List (String × List LTok)) (k : String) : Option (List LTok) :=
  match binds with
  | [] => none
  | p :: rest =>
    match hashMapGet rest k with
    | some v => some v
    | none => if p.1 = k then some p.2 else none

/-- Concatenation of the literal source text of a token sequence
(val.iter().map(text).collect::<String>()). -/
def concatText (l : List LTok) : String :=
  match l with
  | [] => ""
  | t :: rest => t.text ++ concatText rest

/-- The template walk of Define::expand: for each template token, splice a
bound argument, or process the stringification operator, or copy the token.
The unwrap on the empty argument slice and the two invalid-input failures
are exactly those of the source. -/
def expandLoop (binds : List (String × List LTok)) : List LTok → Except PErr (List LTok)
  | [] => .ok []
  | t :: rest =>
    match hashMapGet binds t.text with
    | some val => (expandLoop binds rest).map (fun o => val ++ o)
    | none =>
      if t.isSymbol .doubleQuestion then
        match rest with
        | [] => .error .invalidInput
        | v :: rest2 =>
          match hashMapGet binds v.text with
          | none => .error .invalidInput
          | some val =>
            match val.head? with
            | none => .error (.panicked "called Option.unwrap on a None value")
            | some f =>
              (expandLoop binds rest2).map
                (fun o => StringToken.from_value (concatText val) f.start_position :: o)
      else
        (expandLoop binds rest).map (fun o => t :: o)

/-- The parameter bindings of Define::expand: parameter names zipped with
the argument slices. -/
def expandBinds (vars : MacroVariables) (args : List (List LTok)) : List (String × List LTok) :=
  List.zip (vars.vars.map LTok.text) args

/-- Define::expand of directives.rs.  The leading assert! demands a
parameterized macro; there is no arity check (zip truncates silently). -/
def Define.expand (d : Define) (args : List (List LTok)) : Except PErr (List LTok) :=
  match d.variables' with
  | none => .error (.panicked "assertion failed: self.variables.is_some()")
  | some vars => expandLoop (expandBinds vars args) d.replacement

/-- Parameter token X of the sample definitions. -/
def tokX : LTok := .var "X" 10

/-- Parameter token Y of the sample definitions. -/
def tokY : LTok := .var "Y" 12

/-- Stringification operator token. -/
def tokQQ : LTok := .symbol .doubleQuestion 20

/-- Plus symbol token of the sample replacement. -/
def tokPlus : LTok := .symbol .plus 22

/-- Parameter list (X) of the sample stringification macro. -/
def strVars : MacroVariables :=
  ⟨.symbol .openParen 9, [tokX], .symbol .closeParen 11⟩

/-- Sample definition -define(STR(X), ??X). -/
def strDefine : Define :=
  ⟨.symbol .hyphen 0, .atom "define" 1, .symbol .openParen 7,
   .atom (.atom "STR" 8), some strVars, .symbol .comma 12,
   [tokQQ, tokX], .symbol .closeParen 24, .symbol .dot 25⟩

/-- Parameter list (X, Y) of the sample two-parameter macro. -/
def addVars : MacroVariables :=
  ⟨.symbol .openParen 9, [tokX, tokY], .symbol .closeParen 13⟩

/-- Sample definition -define(ADD(X, Y), X + Y). -/
def addDefine : Define :=
  ⟨.symbol .hyphen 0, .atom "define" 1, .symbol .openParen 7,
   .atom (.atom "ADD" 8), some addVars, .symbol .comma 14,
   [tokX, tokPlus, tokY], .symbol .closeParen 27, .symbol .dot 28⟩

/-- Sample object-like definition -define(OBJ, bar). -/
def objDefine : Define :=
  ⟨.symbol .hyphen 0, .atom "define" 1, .symbol .openParen 7,
   .atom (.atom "OBJ" 8), none, .symbol .comma 11,
   [.atom "bar" 13], .symbol .closeParen 16, .symbol .dot 17⟩

/-- Equation: a template token whose text is bound splices the argument. -/
theorem expandLoop_cons_bound (binds : List (String × List LTok)) (t : LTok) (tl : List LTok)
    (val : List LTok) (h : hashMapGet binds t.text = some val) :
    expandLoop binds (t :: tl) = (expandLoop binds tl).map (fun o => val ++ o) := by
  cases tl with
  | nil => simp [expandLoop, h]
  | cons a b => simp [expandLoop, h]

/-- Equation: an unbound non-operator token is copied. -/
theorem expandLoop_cons_plain (binds : List (String × List LTok)) (t : LTok) (tl : List LTok)
    (h : hashMapGet binds t.text = none) (h2 : t.isSymbol .doubleQuestion = false) :
    expandLoop binds (t :: tl) = (expandLoop binds tl).map (fun o => t :: o) := by
  cases tl with
  | nil => simp [expandLoop, h, h2]
  | cons a b => simp [expandLoop, h, h2]

/-- Equation: a trailing stringification operator fails. -/
theorem expandLoop_cons_qq_last (binds : List (String × List LTok)) (t : LTok)
    (h : hashMapGet binds t.text = none) (h2 : t.isSymbol .doubleQuestion = true) :
    expandLoop binds [t] = .error .invalidInput := by
  simp [expandLoop, h, h2]

/-- Equation: a stringification operator followed by an unbound token fails. -/
theorem expandLoop_cons_qq_unbound (binds : List (String × List LTok)) (t v : LTok)
    (tl2 : List LTok) (h : hashMapGet binds t.text = none)
    (h2 : t.isSymbol .doubleQuestion = true) (h3 : hashMapGet binds v.text = none) :
    expandLoop binds (t :: v :: tl2) = .error .invalidInput := by
  simp [expandLoop, h, h2, h3]

/-- Equation: stringification of an empty argument slice hits the unguarded
unwrap. -/
theorem expandLoop_cons_qq_empty (binds : List (String × List LTok)) (t v : LTok)
    (tl2 : List LTok) (h : hashMapGet binds t.text = none)
    (h2 : t.isSymbol .doubleQuestion = true) (h3 : hashMapGet binds v.text = some []) :
    expandLoop binds (t :: v :: tl2) = .error (.panicked "called Option.unwrap on a None value") := by
  simp [expandLoop, h, h2, h3]

/-- Equation: stringification of a bound, nonempty argument slice yields one
synthesized string token. -/
theorem expandLoop_cons_qq (binds : List (String × List LTok)) (t v : LTok)
    (tl2 val : List LTok) (f : LTok) (h : hashMapGet binds t.text = none)
    (h2 : t.isSymbol .doubleQuestion = true) (h3 : hashMapGet binds v.text = some val)
    (h4 : val.head? = some f) :
    expandLoop binds (t :: v :: tl2) =
      (expandLoop binds tl2).map
        (fun o => StringToken.from_value (concatText val) f.start_position :: o) := by
  simp [expandLoop, h, h2, h3, h4]

/-- Walking a template prefix that succeeds on its own succeeds identically
inside a longer template: the template walk of expand is compositional. -/
theorem expandLoop_append (binds : List (String × List LTok)) :
    ∀ n tpl out rest, tpl.length ≤ n → expandLoop binds tpl = .ok out →
      expandLoop binds (tpl ++ rest) = (expandLoop binds rest).map (fun o => out ++ o) := by
  intro n
  induction n with
  | zero =>
    intro tpl out rest hlen hok
    have htpl : tpl = [] := List.length_eq_zero.mp (Nat.le_zero.mp hlen)
    subst htpl
    simp only [expandLoop] at hok
    cases hok
    cases h : expandLoop binds rest <;> simp [Except.map, h]
  | succ n ih =>
    intro tpl out rest hlen hok
    cases tpl with
    | nil =>
      simp only [expandLoop] at hok
      cases hok
      cases h : expandLoop binds rest <;> simp [Except.map, h]
    | cons t tl =>
      have htl : tl.length ≤ n := by
        simp only [List.length_cons] at hlen; omega
      cases hbt : hashMapGet binds t.text with
      | some val =>
        rw [expandLoop_cons_bound binds t tl val hbt] at hok
        cases h1 : expandLoop binds tl with
        | error e => simp [h1, Except.map] at hok
        | ok o1 =>
          rw [h1] at hok
          simp only [Except.map] at hok
          injection hok with h2
          subst h2
          rw [List.cons_append, expandLoop_cons_bound binds t (tl ++ rest) val hbt,
            ih tl o1 rest htl h1]
          cases h3 : expandLoop binds rest <;> simp [Except.map, List.append_assoc]
      | none =>
        cases hqq : t.isSymbol .doubleQuestion with
        | false =>
          rw [expandLoop_cons_plain binds t tl hbt hqq] at hok
          cases h1 : expandLoop binds tl with
          | error e => simp [h1, Except.map] at hok
          | ok o1 =>
            rw [h1] at hok
            simp only [Except.map] at hok
            injection hok with h2
            subst h2
            rw [List.cons_append, expandLoop_cons_plain binds t (tl ++ rest) hbt hqq,
              ih tl o1 rest htl h1]
            cases h3 : expandLoop binds rest <;> simp [Except.map, List.append_assoc]
        | true =>
          cases tl with
          | nil =>
            rw [expandLoop_cons_qq_last binds t hbt hqq] at hok
            simp at hok
          | cons v tl2 =>
            have htl2 : tl2.length ≤ n := by
              simp only [List.length_cons] at hlen; omega
            cases hbv : hashMapGet binds v.text with
            | none =>
              rw [expandLoop_cons_qq_unbound binds t v tl2 hbt hqq hbv] at hok
              simp at hok
            | some val =>
              cases hhd : val.head? with
              | none =>
                have hval : val = [] := List.head?_eq_none_iff.mp hhd
                subst hval
                rw [expandLoop_cons_qq_empty binds t v tl2 hbt hqq hbv] at hok
                simp at hok
              | some f =>
                rw [expandLoop_cons_qq binds t v tl2 val f hbt hqq hbv hhd] at hok
                cases h1 : expandLoop binds tl2 with
                | error e => simp [h1, Except.map] at hok
                | ok o1 =>
                  rw [h1] at hok
                  simp only [Except.map] at hok
                  injection hok with h2
                  subst h2
                  rw [List.cons_append, List.cons_append,
                    expandLoop_cons_qq binds t v (tl2 ++ rest) val f hbt hqq hbv hhd,
                    ih tl2 o1 rest htl2 h1]
                  cases h3 : expandLoop binds rest <;>
                    simp [Except.map, List.append_assoc]

/-- C2 (amended): in a parameterized expansion whose template contains the
stringification operator followed by a bound parameter token, and whose
argument slice for that parameter is nonempty, expand replaces the pair with
exactly one synthesized string token whose value is the concatenated source
text of the argument slice, positioned at the first argument token; a
missing or unbound token after the operator is an invalid-input error. -/
theorem stringification_spec :
    (∀ (d : Define) (args : List (List LTok)) (vars : MacroVariables) (tq tv : LTok)
        (tpl post out val : List LTok) (f : LTok),
      d.variables' = some vars →
      d.replacement = tpl ++ tq :: tv :: post →
      tq.isSymbol .doubleQuestion = true →
      hashMapGet (expandBinds vars args) tq.text = none →
      hashMapGet (expandBinds vars args) tv.text = some val →
      val.head? = some f →
      expandLoop (expandBinds vars args) tpl = .ok out →
      d.expand args = (expandLoop (expandBinds vars args) post).map
        (fun o => out ++ StringToken.from_value (concatText val) f.start_position :: o))
  ∧ (∀ (d : Define) (args : List (List LTok)) (vars : MacroVariables) (tq : LTok)
        (tpl out : List LTok),
      d.variables' = some vars →
      d.replacement = tpl ++ [tq] →
      tq.isSymbol .doubleQuestion = true →
      hashMapGet (expandBinds vars args) tq.text = none →
      expandLoop (expandBinds vars args) tpl = .ok out →
      d.expand args = .error .invalidInput)
  ∧ (∀ (d : Define) (args : List (List LTok)) (vars : MacroVariables) (tq tv : LTok)
        (tpl post out : List LTok),
      d.variables' = some vars →
      d.replacement = tpl ++ tq :: tv :: post →
      tq.isSymbol .doubleQuestion = true →
      hashMapGet (expandBinds vars args) tq.text = none →
      hashMapGet (expandBinds vars args) tv.text = none →
      expandLoop (expandBinds vars args) tpl = .ok out →
      d.expand args = .error .invalidInput) := by
  refine ⟨?_, ?_, ?_⟩
  · intro d args vars tq tv tpl post out val f hv hrep hqq hbq hbv hhd hok
    simp only [Define.expand, hv, hrep]
    rw [expandLoop_append (expandBinds vars args) tpl.length tpl out
      (tq :: tv :: post) le_rfl hok,
      expandLoop_cons_qq (expandBinds vars args) tq tv post val f hbq hqq hbv hhd]
    cases h3 : expandLoop (expandBinds vars args) post <;> simp [Except.map]
  · intro d args vars tq tpl out hv hrep hqq hbq hok
    simp only [Define.expand, hv, hrep]
    rw [expandLoop_append (expandBinds vars args) tpl.length tpl out [tq] le_rfl hok,
      expandLoop_cons_qq_last (expandBinds vars args) tq hbq hqq]
    simp [Except.map]
  · intro d args vars tq tv tpl post out hv hrep hqq hbq hbv hok
    simp only [Define.expand, hv, hrep]
    rw [expandLoop_append (expandBinds vars args) tpl.length tpl out
      (tq :: tv :: post) le_rfl hok,
      expandLoop_cons_qq_unbound (expandBinds vars args) tq tv post hbq hqq hbv]
    simp [Except.map]

/-- C2 witness: -define(STR(X), ??X). with STR(foo) expands to the single
string token for the text foo. -/
theorem stringification_spec_witness :
    strDefine.expand [[LTok.atom "foo" 30]] = .ok [StringToken.from_value "foo" 30] := by
  have h := stringification_spec.1 strDefine [[LTok.atom "foo" 30]] strVars tokQQ tokX
    [] [] [] [LTok.atom "foo" 30] (LTok.atom "foo" 30) rfl rfl (by decide) (by decide)
    (by decide) (by decide) rfl
  rw [h]
  decide

/-- C2 counterexample: with an empty argument slice the claimed replacement
by an (empty-text) string token does not happen; expand hits the unguarded
unwrap and panics. -/
theorem stringification_empty_slice_cex :
    strDefine.expand [[]] = .error (.panicked "called Option.unwrap on a None value") := by
  decide

/-- C10: a stringification operator applied to a bound parameter whose
argument slice is empty makes expand panic at the unguarded unwrap of the
first argument token, rather than return an error value or an empty string
token. -/
theorem stringification_empty_argument_panics :
    ∀ (d : Define) (args : List (List LTok)) (vars : MacroVariables) (tq tv : LTok)
      (tpl post out : List LTok),
      d.variables' = some vars →
      d.replacement = tpl ++ tq :: tv :: post →
      tq.isSymbol .doubleQuestion = true →
      hashMapGet (expandBinds vars args) tq.text = none →
      hashMapGet (expandBinds vars args) tv.text = some [] →
      expandLoop (expandBinds vars args) tpl = .ok out →
      d.expand args = .error (.panicked "called Option.unwrap on a None value") := by
  intro d args vars tq tv tpl post out hv hrep hqq hbq hbv hok
  simp only [Define.expand, hv, hrep]
  rw [expandLoop_append (expandBinds vars args) tpl.length tpl out
    (tq :: tv :: post) le_rfl hok,
    expandLoop_cons_qq_empty (expandBinds vars args) tq tv post hbq hqq hbv]
  simp [Except.map]

/-- C10 witness: STR([]) panics. -/
theorem stringification_empty_argument_panics_witness :
    strDefine.expand [[]] = .error (.panicked "called Option.unwrap on a None value") := by
  exact stringification_empty_argument_panics strDefine [[]] strVars tokQQ tokX
    [] [] [] rfl rfl (by decide) (by decide) (by decide) rfl

/-- C3 (code divergence): expand performs no arity check.  Invoking the
two-parameter macro ADD with three argument groups succeeds, silently
dropping the third group, and invoking it with one group succeeds with the
unbound second parameter copied verbatim; no arity-mismatch error exists in
the function. -/
theorem expand_no_arity_check :
    addDefine.expand [[LTok.integer 1 40], [LTok.integer 2 43], [LTok.integer 3 46]] =
        .ok [LTok.integer 1 40, tokPlus, LTok.integer 2 43]
      ∧ addDefine.expand [[LTok.integer 1 40]] =
        .ok [LTok.integer 1 40, tokPlus, tokY] := by
  constructor <;> decide

/-- C4 (code divergence): expand on an object-like definition (parameter
list None) does not return the replacement; the leading assert! panics. -/
theorem expand_object_like_asserts :
    objDefine.expand [] = .error (.panicked "assertion failed: self.variables.is_some()") := by
  decide

/-- Modelled from the spec: read of the next token (TokenReader::read_token
of the missing module token_reader.rs).  The reader state over a trivia-free
lexical stream is the list of tokens not yet consumed. -/
def read_token (ts : List LTok) : Except PErr (LTok × List LTok) :=
  match ts with
  | [] => .error .unexpectedEof
  | t :: rest => .ok (t, rest)

/-- Modelled from the spec: read_expected for a symbol value; fails on a
non-matching next token. -/
def read_expected_symbol (s : SymVal) (ts : List LTok) : Except PErr (LTok × List LTok) :=
  match ts with
  | [] => .error .unexpectedEof
  | t :: rest => if t.isSymbol s then .ok (t, rest) else .error .invalidInput

/-- Modelled from the spec: read_expected for an atom with the given text. -/
def read_expected_atom (a : String) (ts : List LTok) : Except PErr (LTok × List LTok) :=
  match ts with
  | [] => .error .unexpectedEof
  | .atom t p :: rest => if t = a then .ok (.atom t p, rest) else .error .invalidInput
  | _ :: _ => .error .invalidInput

/-- Modelled from the spec: try_read_expected for a symbol value; returns an
absence marker without consuming on mismatch. -/
def try_read_expected_symbol (s : SymVal) (ts : List LTok) : Option LTok × List LTok :=
  match ts with
  | t :: rest => if t.isSymbol s then (some t, rest) else (none, ts)
  | [] => (none, ts)

/-- Modelled from the spec: typed read of a string literal token (reader.read
at StringToken type). -/
def read_string_tok (ts : List LTok) : Except PErr (LTok × List LTok) :=
  match ts with
  | .str v t p :: rest => .ok (.str v t p, rest)
  | [] => .error .unexpectedEof
  | _ :: _ => .error .invalidInput

/-- Modelled from the spec: ReadFrom for MacroName (missing module
types.rs): an atom token or a variable token, anything else is invalid. -/
def MacroName.read_from (ts : List LTok) : Except PErr (MacroName × List LTok) :=
  match ts with
  | .atom t p :: rest => .ok (.atom (.atom t p), rest)
  | .var t p :: rest => .ok (.var (.var t p), rest)
  | [] => .error .unexpectedEof
  | _ :: _ => .error .invalidInput

/-- Modelled from the spec: the variable-list loop of ReadFrom for
MacroVariables, grammar ( Var , Var , ... ). -/
def mvLoop : List LTok → List LTok → Except PErr (List LTok × LTok × List LTok)
  | [], _ => .error .unexpectedEof
  | v :: rest, acc =>
    match v with
    | .var t p =>
      match rest with
      | [] => .error .unexpectedEof
      | s :: rest2 =>
        if s.isSymbol .comma then mvLoop rest2 (acc ++ [.var t p])
        else if s.isSymbol .closeParen then .ok (acc ++ [.var t p], s, rest2)
        else .error .invalidInput
    | _ => .error .invalidInput

/-- Modelled from the spec: ReadFrom for MacroVariables. -/
def MacroVariables.read_from (ts : List LTok) : Except PErr (MacroVariables × List LTok) := do
  let (op, ts1) ← read_expected_symbol .openParen ts
  let (vs, cp, ts2) ← mvLoop ts1 []
  pure (⟨op, vs, cp⟩, ts2)

/-- The Include directive (struct Include of directives.rs). -/
structure Include where
  _hyphen : LTok
  _include : LTok
  _open_paren : LTok
  path : LTok
  _close_paren : LTok
  _dot : LTok
  deriving DecidableEq

/-- Display for Include. -/
def Include.display (i : Include) : String :=
  "-include(" ++ i.path.text ++ ")."

/-- ReadFrom for Include. -/
def Include.read_from (ts : List LTok) : Except PErr (Include × List LTok) := do
  let (hy, ts1) ← read_expected_symbol .hyphen ts
  let (kw, ts2) ← read_expected_atom "include" ts1
  let (op, ts3) ← read_expected_symbol .openParen ts2
  let (p, ts4) ← read_string_tok ts3
  let (cp, ts5) ← read_expected_symbol .closeParen ts4
  let (dt, ts6) ← read_expected_symbol .dot ts5
  pure (⟨hy, kw, op, p, cp, dt⟩, ts6)

/-- The IncludeLib directive (struct IncludeLib of directives.rs). -/
structure IncludeLib where
  _hyphen : LTok
  _include_lib : LTok
  _open_paren : LTok
  path : LTok
  _close_paren : LTok
  _dot : LTok
  deriving DecidableEq

/-- Display for IncludeLib. -/
def IncludeLib.display (i : IncludeLib) : String :=
  "-include_lib(" ++ i.path.text ++ ")."

/-- ReadFrom for IncludeLib. -/
def IncludeLib.read_from (ts : List LTok) : Except PErr (IncludeLib × List LTok) := do
  let (hy, ts1) ← read_expected_symbol .hyphen ts
  let (kw, ts2) ← read_expected_atom "include_lib" ts1
  let (op, ts3) ← read_expected_symbol .openParen ts2
  let (p, ts4) ← read_string_tok ts3
  let (cp, ts5) ← read_expected_symbol .closeParen ts4
  let (dt, ts6) ← read_expected_symbol .dot ts5
  pure (⟨hy, kw, op, p, cp, dt⟩, ts6)

/-- The Error directive (struct Error of directives.rs). -/
structure Error where
  _hyphen : LTok
  _error : LTok
  _open_paren : LTok
  message : LTok
  _close_paren : LTok
  _dot : LTok
  deriving DecidableEq

/-- Display for Error. -/
def Error.display (e : Error) : String :=
  "-error(" ++ e.message.text ++ ")."

/-- ReadFrom for Error. -/
def Error.read_from (ts : List LTok) : Except PErr (Error × List LTok) := do
  let (hy, ts1) ← read_expected_symbol .hyphen ts
  let (kw, ts2) ← read_expected_atom "error" ts1
  let (op, ts3) ← read_expected_symbol .openParen ts2
  let (m, ts4) ← read_string_tok ts3
  let (cp, ts5) ← read_expected_symbol .closeParen ts4
  let (dt, ts6) ← read_expected_symbol .dot ts5
  pure (⟨hy, kw, op, m, cp, dt⟩, ts6)

/-- The Warning directive (struct Warning of directives.rs). -/
structure Warning where
  _hyphen : LTok
  _warning : LTok
  _open_paren : LTok
  message : LTok
  _close_paren : LTok
  _dot : LTok
  deriving DecidableEq

/-- Display for Warning. -/
def Warning.display (w : Warning) : String :=
  "-warning(" ++ w.message.text ++ ")."

/-- ReadFrom for Warning. -/
def Warning.read_from (ts : List LTok) : Except PErr (Warning × List LTok) := do
  let (hy, ts1) ← read_expected_symbol .hyphen ts
  let (kw, ts2) ← read_expected_atom "warning" ts1
  let (op, ts3) ← read_expected_symbol .openParen ts2
  let (m, ts4) ← read_string_tok ts3
  let (cp, ts5) ← read_expected_symbol .closeParen ts4
  let (dt, ts6) ← read_expected_symbol .dot ts5
  pure (⟨hy, kw, op, m, cp, dt⟩, ts6)

/-- The Endif directive (struct Endif of directives.rs). -/
structure Endif where
  _hyphen : LTok
  _endif : LTok
  _dot : LTok
  deriving DecidableEq

/-- Display for Endif. -/
def Endif.display (_ : Endif) : String := "-endif."

/-- ReadFrom for Endif. -/
def Endif.read_from (ts : List LTok) : Except PErr (Endif × List LTok) := do
  let (hy, ts1) ← read_expected_symbol .hyphen ts
  let (kw, ts2) ← read_expected_atom "endif" ts1
  let (dt, ts3) ← read_expected_symbol .dot ts2
  pure (⟨hy, kw, dt⟩, ts3)

/-- The Else directive (struct Else of directives.rs). -/
structure Else where
  _hyphen : LTok
  _else : LTok
  _dot : LTok
  deriving DecidableEq

/-- Display for Else. -/
def Else.display (_ : Else) : String := "-else."

/-- ReadFrom for Else. -/
def Else.read_from (ts : List LTok) : Except PErr (Else × List LTok) := do
  let (hy, ts1) ← read_expected_symbol .hyphen ts
  let (kw, ts2) ← read_expected_atom "else" ts1
  let (dt, ts3) ← read_expected_symbol .dot ts2
  pure (⟨hy, kw, dt⟩, ts3)

/-- The Undef directive (struct Undef of directives.rs). -/
structure Undef where
  _hyphen : LTok
  _undef : LTok
  _open_paren : LTok
  name : MacroName
  _close_paren : LTok
  _dot : LTok
  deriving DecidableEq

/-- Display for Undef. -/
def Undef.display (u : Undef) : String :=
  "-undef(" ++ u.name.text ++ ")."

/-- ReadFrom for Undef. -/
def Undef.read_from (ts : List LTok) : Except PErr (Undef × List LTok) := do
  let (hy, ts1) ← read_expected_symbol .hyphen ts
  let (kw, ts2) ← read_expected_atom "undef" ts1
  let (op, ts3) ← read_expected_symbol .openParen ts2
  let (n, ts4) ← MacroName.read_from ts3
  let (cp, ts5) ← read_expected_symbol .closeParen ts4
  let (dt, ts6) ← read_expected_symbol .dot ts5
  pure (⟨hy, kw, op, n, cp, dt⟩, ts6)

/-- The Ifdef directive (struct Ifdef of directives.rs). -/
structure Ifdef where
  _hyphen : LTok
  _ifdef : LTok
  _open_paren : LTok
  name : MacroName
  _close_paren : LTok
  _dot : LTok
  deriving DecidableEq

/-- Display for Ifdef. -/
def Ifdef.display (i : Ifdef) : String :=
  "-ifdef(" ++ i.name.text ++ ")."

/-- ReadFrom for Ifdef. -/
def Ifdef.read_from (ts : List LTok) : Except PErr (Ifdef × List LTok) := do
  let (hy, ts1) ← read_expected_symbol .hyphen ts
  let (kw, ts2) ← read_expected_atom "ifdef" ts1
  let (op, ts3) ← read_expected_symbol .openParen ts2
  let (n, ts4) ← MacroName.read_from ts3
  let (cp, ts5) ← read_expected_symbol .closeParen ts4
  let (dt, ts6) ← read_expected_symbol .dot ts5
  pure (⟨hy, kw, op, n, cp, dt⟩, ts6)

/-- The Ifndef directive (struct Ifndef of directives.rs). -/
structure Ifndef where
  _hyphen : LTok
  _ifndef : LTok
  _open_paren : LTok
  name : MacroName
  _close_paren : LTok
  _dot : LTok
  deriving DecidableEq

/-- Display for Ifndef. -/
def Ifndef.display (i : Ifndef) : String :=
  "-ifndef(" ++ i.name.text ++ ")."

/-- ReadFrom for Ifndef. -/
def Ifndef.read_from (ts : List LTok) : Except PErr (Ifndef × List LTok) := do
  let (hy, ts1) ← read_expected_symbol .hyphen ts
  let (kw, ts2) ← read_expected_atom "ifndef" ts1
  let (op, ts3) ← read_expected_symbol .openParen ts2
  let (n, ts4) ← MacroName.read_from ts3
  let (cp, ts5) ← read_expected_symbol .closeParen ts4
  let (dt, ts6) ← read_expected_symbol .dot ts5
  pure (⟨hy, kw, op, n, cp, dt⟩, ts6)

/-- Display for Define: the canonical reconstruction used by the source
(name, optional parameter list, a comma and one space, the concatenated
replacement texts). -/
def Define.display (d : Define) : String :=
  "-define(" ++ d.name.text ++
    (match d.variables' with
     | none => ""
     | some v => v.display) ++ ", " ++ concatText d.replacement ++ ")."

/-- The replacement-collection loop of ReadFrom for Define: try a close
paren; if it is followed by a dot the replacement ends, otherwise the close
paren itself is kept as a replacement token; any other token is pushed. -/
def defLoop : List LTok → List LTok → Except PErr (List LTok × LTok × LTok × List LTok)
  | [], _ => .error .unexpectedEof
  | t :: rest, acc =>
    if t.isSymbol .closeParen then
      match rest with
      | d :: rest2 =>
        if d.isSymbol .dot then .ok (acc, t, d, rest2)
        else defLoop (d :: rest2) (acc ++ [t])
      | [] => .error .unexpectedEof
    else defLoop rest (acc ++ [t])

/-- ReadFrom for Define: hyphen, the define keyword, the macro name, an
optional parameter list probed by try_read_expected on an open paren (with
the token pushed back before the typed read), the comma, then the
replacement loop. -/
def Define.read_from (ts : List LTok) : Except PErr (Define × List LTok) := do
  let (hy, ts1) ← read_expected_symbol .hyphen ts
  let (kw, ts2) ← read_expected_atom "define" ts1
  let (op, ts3) ← read_expected_symbol .openParen ts2
  let (n, ts4) ← MacroName.read_from ts3
  let (vars, ts5) ←
    match try_read_expected_symbol .openParen ts4 with
    | (some tok, rest) => do
      let (v, r) ← MacroVariables.read_from (tok :: rest)
      pure (some v, r)
    | (none, _) => pure ((none : Option MacroVariables), ts4)
  let (cm, ts6) ← read_expected_symbol .comma ts5
  let (repl, cp, dt, ts7) ← defLoop ts6 []
  pure (⟨hy, kw, op, n, vars, cm, repl, cp, dt⟩, ts7)

/-- Raw source items: the lexical tokens interleaved with trivia
(whitespace or comment) text, modelling the original byte stream of a
directive before the lexical filter. -/
inductive Raw
  | lex (t : LTok)
  | trivia (s : String)
  deriving DecidableEq

/-- Original source bytes of a raw token sequence. -/
def rawText : List Raw → String
  | [] => ""
  | .lex t :: rest => t.text ++ rawText rest
  | .trivia s :: rest => s ++ rawText rest

/-- The trivia-free lexical stream of a raw token sequence (what the reader
of directives.rs consumes). -/
def lexOf (l : List Raw) : List LTok :=
  l.filterMap (fun r => match r with | .lex t => some t | .trivia _ => none)

/-- A close-paren symbol token is not a dot symbol token. -/
theorem close_not_dot (t : LTok) (h : t.isSymbol .closeParen = true) :
    t.isSymbol .dot = false := by
  cases t with
  | symbol s p =>
    simp only [LTok.isSymbol, decide_eq_true_eq] at h
    subst h
    simp [LTok.isSymbol]
  | atom a p => simp [LTok.isSymbol] at h
  | var a p => simp [LTok.isSymbol] at h
  | str v a p => simp [LTok.isSymbol] at h
  | integer v p => simp [LTok.isSymbol] at h

/-- Equation: a close paren followed by a dot ends the replacement. -/
theorem defLoop_cons_close_dot (t d : LTok) (rest acc : List LTok)
    (h1 : t.isSymbol .closeParen = true) (h2 : d.isSymbol .dot = true) :
    defLoop (t :: d :: rest) acc = .ok (acc, t, d, rest) := by
  simp [defLoop, h1, h2]

/-- Equation: a close paren not followed by a dot is kept as a replacement
token. -/
theorem defLoop_cons_close_nondot (t d : LTok) (rest acc : List LTok)
    (h1 : t.isSymbol .closeParen = true) (h2 : d.isSymbol .dot = false) :
    defLoop (t :: d :: rest) acc = defLoop (d :: rest) (acc ++ [t]) := by
  simp [defLoop, h1, h2]

/-- Equation: a non-close-paren token is pushed onto the replacement. -/
theorem defLoop_cons_plain (t : LTok) (rest acc : List LTok)
    (h1 : t.isSymbol .closeParen = false) :
    defLoop (t :: rest) acc = defLoop rest (acc ++ [t]) := by
  cases rest with
  | nil => simp [defLoop, h1]
  | cons a b => simp [defLoop, h1]

/-- The replacement loop collects exactly the tokens before the first close
paren that is immediately followed by a dot. -/
theorem defLoop_split (cp dt : LTok) (hcp : cp.isSymbol .closeParen = true)
    (hdt : dt.isSymbol .dot = true) :
    ∀ body acc rest,
      List.Chain' (fun a b =>
        ¬(a.isSymbol .closeParen = true ∧ b.isSymbol .dot = true)) body →
      defLoop (body ++ cp :: dt :: rest) acc = .ok (acc ++ body, cp, dt, rest) := by
  intro body
  induction body with
  | nil =>
    intro acc rest hch
    simp only [List.nil_append]
    rw [defLoop_cons_close_dot cp dt rest acc hcp hdt]
    simp
  | cons b body2 ih =>
    intro acc rest hch
    simp only [List.cons_append]
    cases hb : b.isSymbol .closeParen with
    | false =>
      rw [defLoop_cons_plain b _ acc hb, ih (acc ++ [b]) rest hch.tail]
      simp
    | true =>
      cases body2 with
      | nil =>
        simp only [List.nil_append]
        rw [defLoop_cons_close_nondot b cp (dt :: rest) acc hb (close_not_dot cp hcp),
          defLoop_cons_close_dot cp dt rest (acc ++ [b]) hcp hdt]
      | cons b2 body3 =>
        simp only [List.cons_append]
        have hrel : ¬(b.isSymbol .closeParen = true ∧ b2.isSymbol .dot = true) :=
          (List.chain'_cons.mp hch).1
        have hb2 : b2.isSymbol .dot = false := by
          cases h2 : b2.isSymbol .dot with
          | false => rfl
          | true => exact absurd ⟨hb, h2⟩ hrel
        rw [defLoop_cons_close_nondot b b2 (body3 ++ cp :: dt :: rest) acc hb hb2]
        have hstep := ih (acc ++ [b]) rest (List.chain'_cons.mp hch).2
        rw [List.cons_append] at hstep
        rw [hstep]
        simp

/-- Reading a define whose header is canonical and whose body has no interior
close-paren-dot pair returns exactly that body as the replacement. -/
theorem define_read_from_replacement :
    ∀ (ph pd po pn pc pcp pdt : Nat) (ntxt : String) (body rest : List LTok),
      List.Chain' (fun a b =>
        ¬(a.isSymbol .closeParen = true ∧ b.isSymbol .dot = true)) body →
      Define.read_from
          ([LTok.symbol .hyphen ph, LTok.atom "define" pd, LTok.symbol .openParen po,
            LTok.atom ntxt pn, LTok.symbol .comma pc] ++ body ++
            [LTok.symbol .closeParen pcp, LTok.symbol .dot pdt] ++ rest) =
        .ok (⟨LTok.symbol .hyphen ph, LTok.atom "define" pd, LTok.symbol .openParen po,
              MacroName.atom (LTok.atom ntxt pn), none, LTok.symbol .comma pc, body,
              LTok.symbol .closeParen pcp, LTok.symbol .dot pdt⟩, rest) := by
  intro ph pd po pn pc pcp pdt ntxt body rest hch
  have hloop := defLoop_split (LTok.symbol .closeParen pcp) (LTok.symbol .dot pdt)
    (by simp [LTok.isSymbol]) (by simp [LTok.isSymbol]) body [] rest hch
  simp only [List.cons_append, List.nil_append, List.append_assoc] at hloop ⊢
  simp [Define.read_from, read_expected_symbol, read_expected_atom, MacroName.read_from,
    try_read_expected_symbol, LTok.isSymbol, hloop, Except.map, Except.bind, bind, pure,
    Except.pure, Functor.map]

/-- C6: when reading a define directive, a close paren immediately followed
by a dot terminates the replacement, a close paren followed by anything else
is retained as an ordinary replacement token, and the returned replacement
is exactly the tokens between the separating comma and the terminating close
paren. -/
theorem define_replacement_termination :
    ∀ (ph pd po pn pc pcp pdt : Nat) (ntxt : String) (body rest : List LTok),
      List.Chain' (fun a b =>
        ¬(a.isSymbol .closeParen = true ∧ b.isSymbol .dot = true)) body →
      Define.read_from
          ([LTok.symbol .hyphen ph, LTok.atom "define" pd, LTok.symbol .openParen po,
            LTok.atom ntxt pn, LTok.symbol .comma pc] ++ body ++
            [LTok.symbol .closeParen pcp, LTok.symbol .dot pdt] ++ rest) =
        .ok (⟨LTok.symbol .hyphen ph, LTok.atom "define" pd, LTok.symbol .openParen po,
              MacroName.atom (LTok.atom ntxt pn), none, LTok.symbol .comma pc, body,
              LTok.symbol .closeParen pcp, LTok.symbol .dot pdt⟩, rest) :=
  define_read_from_replacement

/-- C6 witness: a replacement containing an interior close paren followed by
an atom keeps that close paren as a replacement token. -/
theorem define_replacement_termination_witness :
    Define.read_from
        [LTok.symbol .hyphen 0, LTok.atom "define" 1, LTok.symbol .openParen 7,
         LTok.atom "M" 8, LTok.symbol .comma 9, LTok.atom "x" 11,
         LTok.symbol .closeParen 12, LTok.atom "y" 13,
         LTok.symbol .closeParen 14, LTok.symbol .dot 15] =
      .ok (⟨LTok.symbol .hyphen 0, LTok.atom "define" 1, LTok.symbol .openParen 7,
            MacroName.atom (LTok.atom "M" 8), none, LTok.symbol .comma 9,
            [LTok.atom "x" 11, LTok.symbol .closeParen 12, LTok.atom "y" 13],
            LTok.symbol .closeParen 14, LTok.symbol .dot 15⟩, []) := by
  exact define_replacement_termination 0 1 7 8 9 14 15 "M"
    [LTok.atom "x" 11, LTok.symbol .closeParen 12, LTok.atom "y" 13] []
    (by simp [List.chain'_cons, LTok.isSymbol])

/-- Raw text of lexical tokens followed by a suffix is the concatenated
token text followed by the raw text of the suffix. -/
theorem rawText_lex_append (l : List LTok) (suffix : List Raw) :
    rawText (l.map Raw.lex ++ suffix) = concatText l ++ rawText suffix := by
  induction l with
  | nil => simp [rawText, concatText, String.empty_append]
  | cons t rest ih => simp [rawText, concatText, ih, String.append_assoc]

/-- The lexical filter is the identity on purely lexical raw streams. -/
theorem filterMap_lex_comp (l : List LTok) :
    List.filterMap ((fun r => match r with | Raw.lex t => some t | Raw.trivia _ => none) ∘
      Raw.lex) l = l := by
  induction l with
  | nil => simp
  | cons t rest ih => simp [List.filterMap_cons, Function.comp, ih]

/-- Canonical source of an include directive. -/
def includeSrc (pv pt : String) : List Raw :=
  [.lex (.symbol .hyphen 0), .lex (.atom "include" 1), .lex (.symbol .openParen 8),
   .lex (.str pv pt 9), .lex (.symbol .closeParen 20), .lex (.symbol .dot 21)]

/-- Canonical source of an include_lib directive. -/
def includeLibSrc (pv pt : String) : List Raw :=
  [.lex (.symbol .hyphen 0), .lex (.atom "include_lib" 1), .lex (.symbol .openParen 12),
   .lex (.str pv pt 13), .lex (.symbol .closeParen 24), .lex (.symbol .dot 25)]

/-- Canonical source of an error directive. -/
def errorSrc (mv mt : String) : List Raw :=
  [.lex (.symbol .hyphen 0), .lex (.atom "error" 1), .lex (.symbol .openParen 6),
   .lex (.str mv mt 7), .lex (.symbol .closeParen 18), .lex (.symbol .dot 19)]

/-- Canonical source of a warning directive. -/
def warningSrc (mv mt : String) : List Raw :=
  [.lex (.symbol .hyphen 0), .lex (.atom "warning" 1), .lex (.symbol .openParen 8),
   .lex (.str mv mt 9), .lex (.symbol .closeParen 20), .lex (.symbol .dot 21)]

/-- Canonical source of an endif directive. -/
def endifSrc : List Raw :=
  [.lex (.symbol .hyphen 0), .lex (.atom "endif" 1), .lex (.symbol .dot 6)]

/-- Canonical source of an else directive. -/
def elseSrc : List Raw :=
  [.lex (.symbol .hyphen 0), .lex (.atom "else" 1), .lex (.symbol .dot 5)]

/-- Canonical source of an undef directive. -/
def undefSrc (n : String) : List Raw :=
  [.lex (.symbol .hyphen 0), .lex (.atom "undef" 1), .lex (.symbol .openParen 6),
   .lex (.atom n 7), .lex (.symbol .closeParen 8), .lex (.symbol .dot 9)]

/-- Canonical source of an ifdef directive. -/
def ifdefSrc (n : String) : List Raw :=
  [.lex (.symbol .hyphen 0), .lex (.atom "ifdef" 1), .lex (.symbol .openParen 6),
   .lex (.atom n 7), .lex (.symbol .closeParen 8), .lex (.symbol .dot 9)]

/-- Canonical source of an ifndef directive. -/
def ifndefSrc (n : String) : List Raw :=
  [.lex (.symbol .hyphen 0), .lex (.atom "ifndef" 1), .lex (.symbol .openParen 7),
   .lex (.atom n 8), .lex (.symbol .closeParen 9), .lex (.symbol .dot 10)]

/-- Canonical source of an object-like define directive: exactly one space
after the separating comma and no further interior trivia. -/
def defineSrc (n : String) (repl : List LTok) : List Raw :=
  [.lex (.symbol .hyphen 0), .lex (.atom "define" 1), .lex (.symbol .openParen 7),
   .lex (.atom n 8), .lex (.symbol .comma 9), .trivia " "] ++ repl.map Raw.lex ++
  [.lex (.symbol .closeParen 90), .lex (.symbol .dot 91)]

/-- An include directive written with a space between the hyphen and the
keyword. -/
def includePadSrc : List Raw :=
  [.lex (.symbol .hyphen 0), .trivia " ", .lex (.atom "include" 2),
   .lex (.symbol .openParen 9), .lex (.str "foo.hrl" "\x22foo.hrl\x22" 10),
   .lex (.symbol .closeParen 19), .lex (.symbol .dot 20)]

/-- C9 counterexample: a well-formed include directive containing interior
whitespace parses, but the rendering of the parsed directive is the
canonical form, not the original source bytes. -/
theorem display_not_source_exact_cex :
    (Include.read_from (lexOf includePadSrc)).map (fun p => (p.1.display, p.2)) =
        .ok ("-include(\x22foo.hrl\x22).", [])
      ∧ rawText includePadSrc = "- include(\x22foo.hrl\x22)."
      ∧ "-include(\x22foo.hrl\x22)." ≠ "- include(\x22foo.hrl\x22)." := by
  refine ⟨by decide, by decide, by decide⟩

/-- C9 (amended): for each of the ten directive kinds, rendering the parsed
directive reproduces the original source bytes exactly whenever the
directive is written canonically (no interior trivia, except exactly one
space after the comma of a define); interior whitespace or comments are not
preserved (see the counterexample). -/
theorem display_canonical_roundtrip :
    (∀ pv pt : String,
      (Include.read_from (lexOf (includeSrc pv pt))).map (fun p => (p.1.display, p.2)) =
        .ok (rawText (includeSrc pv pt), []))
  ∧ (∀ pv pt : String,
      (IncludeLib.read_from (lexOf (includeLibSrc pv pt))).map (fun p => (p.1.display, p.2)) =
        .ok (rawText (includeLibSrc pv pt), []))
  ∧ (∀ mv mt : String,
      (Error.read_from (lexOf (errorSrc mv mt))).map (fun p => (p.1.display, p.2)) =
        .ok (rawText (errorSrc mv mt), []))
  ∧ (∀ mv mt : String,
      (Warning.read_from (lexOf (warningSrc mv mt))).map (fun p => (p.1.display, p.2)) =
        .ok (rawText (warningSrc mv mt), []))
  ∧ ((Endif.read_from (lexOf endifSrc)).map (fun p => (p.1.display, p.2)) =
      .ok (rawText endifSrc, []))
  ∧ ((Else.read_from (lexOf elseSrc)).map (fun p => (p.1.display, p.2)) =
      .ok (rawText elseSrc, []))
  ∧ (∀ n : String,
      (Undef.read_from (lexOf (undefSrc n))).map (fun p => (p.1.display, p.2)) =
        .ok (rawText (undefSrc n), []))
  ∧ (∀ n : String,
      (Ifdef.read_from (lexOf (ifdefSrc n))).map (fun p => (p.1.display, p.2)) =
        .ok (rawText (ifdefSrc n), []))
  ∧ (∀ n : String,
      (Ifndef.read_from (lexOf (ifndefSrc n))).map (fun p => (p.1.display, p.2)) =
        .ok (rawText (ifndefSrc n), []))
  ∧ (∀ (n : String) (repl : List LTok),
      List.Chain' (fun a b =>
        ¬(a.isSymbol .closeParen = true ∧ b.isSymbol .dot = true)) repl →
      (Define.read_from (lexOf (defineSrc n repl))).map (fun p => (p.1.display, p.2)) =
        .ok (rawText (defineSrc n repl), [])) := by
  refine ⟨?_, ?_, ?_, ?_, ?_, ?_, ?_, ?_, ?_, ?_⟩
  · intro pv pt
    simp [includeSrc, lexOf, Include.read_from, Include.display, read_expected_symbol,
      read_expected_atom, read_string_tok, LTok.isSymbol, Except.map, Except.bind, bind,
      pure, Except.pure, rawText, LTok.text, SymVal.text]
    simp [← String.append_assoc]
  · intro pv pt
    simp [includeLibSrc, lexOf, IncludeLib.read_from, IncludeLib.display, read_expected_symbol,
      read_expected_atom, read_string_tok, LTok.isSymbol, Except.map, Except.bind, bind,
      pure, Except.pure, rawText, LTok.text, SymVal.text]
    simp [← String.append_assoc]
  · intro mv mt
    simp [errorSrc, lexOf, Error.read_from, Error.display, read_expected_symbol,
      read_expected_atom, read_string_tok, LTok.isSymbol, Except.map, Except.bind, bind,
      pure, Except.pure, rawText, LTok.text, SymVal.text]
    simp [← String.append_assoc]
  · intro mv mt
    simp [warningSrc, lexOf, Warning.read_from, Warning.display, read_expected_symbol,
      read_expected_atom, read_string_tok, LTok.isSymbol, Except.map, Except.bind, bind,
      pure, Except.pure, rawText, LTok.text, SymVal.text]
    simp [← String.append_assoc]
  · decide
  · decide
  · intro n
    simp [undefSrc, lexOf, Undef.read_from, Undef.display, read_expected_symbol,
      read_expected_atom, MacroName.read_from, MacroName.text, LTok.isSymbol, Except.map,
      Except.bind, bind, pure, Except.pure, rawText, LTok.text, SymVal.text]
    simp [← String.append_assoc]
  · intro n
    simp [ifdefSrc, lexOf, Ifdef.read_from, Ifdef.display, read_expected_symbol,
      read_expected_atom, MacroName.read_from, MacroName.text, LTok.isSymbol, Except.map,
      Except.bind, bind, pure, Except.pure, rawText, LTok.text, SymVal.text]
    simp [← String.append_assoc]
  · intro n
    simp [ifndefSrc, lexOf, Ifndef.read_from, Ifndef.display, read_expected_symbol,
      read_expected_atom, MacroName.read_from, MacroName.text, LTok.isSymbol, Except.map,
      Except.bind, bind, pure, Except.pure, rawText, LTok.text, SymVal.text]
    simp [← String.append_assoc]
  · intro n repl hch
    have hlex : lexOf (defineSrc n repl) =
        [LTok.symbol .hyphen 0, LTok.atom "define" 1, LTok.symbol .openParen 7,
         LTok.atom n 8, LTok.symbol .comma 9] ++ repl ++
        [LTok.symbol .closeParen 90, LTok.symbol .dot 91] := by
      simp [defineSrc, lexOf, List.filterMap_append, List.filterMap_cons,
        List.filterMap_map, filterMap_lex_comp]
    have hrd := define_read_from_replacement 0 1 7 8 9 90 91 n repl [] hch
    simp only [List.append_nil, List.append_assoc, List.cons_append,
      List.nil_append] at hrd hlex
    rw [hlex, hrd]
    have hraw := rawText_lex_append repl
      [.lex (.symbol .closeParen 90), .lex (.symbol .dot 91)]
    simp [Define.display, MacroName.text, Except.map, rawText, hraw, defineSrc,
      LTok.text, SymVal.text]
    simp [← String.append_assoc]

/-- C9 witness: the canonical define -define(M, a). round-trips exactly. -/
theorem display_canonical_roundtrip_witness :
    (Define.read_from (lexOf (defineSrc "M" [LTok.atom "a" 11]))).map
        (fun p => (p.1.display, p.2)) =
      .ok (rawText (defineSrc "M" [LTok.atom "a" 11]), []) := by
  exact display_canonical_roundtrip.2.2.2.2.2.2.2.2.2 "M" [LTok.atom "a" 11] (by simp)

end directives

namespace preprocessor

/-- Tokens of the driver stream (erl_tokenize::Token): lexical kinds plus
whitespace and comment trivia. -/
inductive Tok
  | atom (txt : String)
  | var (txt : String)
  | str (value : String)
  | integer (value : Nat)
  | symbol (s : SymVal)
  | whitespace (txt : String)
  | comment (txt : String)
  deriving DecidableEq

/-- Trivia test (whitespace or comment). -/
def Tok.isTrivia : Tok → Bool
  | .whitespace _ => true
  | .comment _ => true
  | _ => false

/-- Modelled from the spec: the transactional token reader of the missing
module token_reader.rs, as a buffered-replay cursor: the token list, the
read index, and a stack of saved indices for the open transactions.
Positions are token indices. -/
structure ReaderState where
  all : List Tok
  idx : Nat
  txns : List Nat
  deriving DecidableEq

/-- Next unconsumed token. -/
def ReaderState.peek (r : ReaderState) : Option Tok := r.all[r.idx]?

/-- Advance past one token. -/
def ReaderState.advance (r : ReaderState) : ReaderState := { r with idx := r.idx + 1 }

/-- Modelled from the spec: TokenReader::read. -/
def ReaderState.read (r : ReaderState) : Option (Tok × ReaderState) :=
  r.peek.map (fun t => (t, r.advance))

/-- Modelled from the spec: TokenReader::position. -/
def ReaderState.position (r : ReaderState) : Nat := r.idx

/-- Modelled from the spec: start_transaction saves the read position. -/
def start_transaction (r : ReaderState) : ReaderState := { r with txns := r.idx :: r.txns }

/-- Modelled from the spec: abort_transaction restores the saved position. -/
def abort_transaction (r : ReaderState) : ReaderState :=
  match r.txns with
  | i :: rest => { r with idx := i, txns := rest }
  | [] => r

/-- Modelled from the spec: commit_transaction drops the bookkeeping and
returns the buffered tokens of the innermost transaction. -/
def commit_transaction (r : ReaderState) : List Tok × ReaderState :=
  match r.txns with
  | i :: rest => ((r.all.drop i).take (r.idx - i), { r with txns := rest })
  | [] => ([], r)

/-- Modelled from the spec: read_symbol_if consumes the next token only when
it is the given symbol (no trivia skipping; the callers skip explicitly). -/
def read_symbol_if (s : SymVal) (r : ReaderState) : Option Tok × ReaderState :=
  match r.peek with
  | some (.symbol s2) => if s2 = s then (some (.symbol s2), r.advance) else (none, r)
  | _ => (none, r)

/-- Count of leading trivia tokens. -/
def leadingTrivia : List Tok → Nat
  | [] => 0
  | t :: rest => if t.isTrivia then leadingTrivia rest + 1 else 0

/-- Modelled from the spec: skip_whitespace_or_comment advances past trivia
tokens only. -/
def skip_whitespace_or_comment (r : ReaderState) : ReaderState :=
  { r with idx := r.idx + leadingTrivia (r.all.drop r.idx) }

/-- Modelled from the spec: read_atom consumes the next token only when it
is an atom, returning its text. -/
def read_atom (r : ReaderState) : Option String × ReaderState :=
  match r.peek with
  | some (.atom a) => (some a, r.advance)
  | _ => (none, r)

/-- Modelled from the spec: read_variable consumes the next token only when
it is a variable, returning its text. -/
def read_variable (r : ReaderState) : Option String × ReaderState :=
  match r.peek with
  | some (.var a) => (some a, r.advance)
  | _ => (none, r)

/-- Modelled from the spec: read_variable_or_error. -/
def read_variable_or_error (r : ReaderState) : Except PErr (Tok × ReaderState) :=
  match r.peek with
  | some (.var a) => .ok (.var a, r.advance)
  | some _ => .error .invalidInput
  | none => .error .unexpectedEof

/-- Modelled from the spec: read_expected_symbol_or_error. -/
def read_expected_symbol_or_error (s : SymVal) (r : ReaderState) : Except PErr ReaderState :=
  match r.peek with
  | some (.symbol s2) => if s2 = s then .ok r.advance else .error .invalidInput
  | some _ => .error .invalidInput
  | none => .error .unexpectedEof

/-- Modelled from the spec: read_symbol_or_error. -/
def read_symbol_or_error (r : ReaderState) : Except PErr (SymVal × ReaderState) :=
  match r.peek with
  | some (.symbol s2) => .ok (s2, r.advance)
  | some _ => .error .invalidInput
  | none => .error .unexpectedEof

/-- Modelled from the spec: read_or_error. -/
def read_or_error (r : ReaderState) : Except PErr (Tok × ReaderState) :=
  match r.peek with
  | some t => .ok (t, r.advance)
  | none => .error .unexpectedEof

/-- Modelled from the spec: MacroName of the missing module directive.rs;
identity (hashing and equality) is the underlying text. -/
inductive MacroName
  | atom (txt : String)
  | var (txt : String)
  deriving DecidableEq

/-- Text of a macro name. -/
def MacroName.text : MacroName → String
  | .atom t => t
  | .var t => t

/-- The MacroDef directive record of the older module layout (name,
optional parameter tokens, replacement span, buffered directive tokens). -/
structure MacroDef where
  name : MacroName
  vars : Option (List Tok)
  replacement_start : Nat
  replacement_end : Nat
  tokens : List Tok
  deriving DecidableEq

/-- The Undef directive record of the older module layout. -/
structure Undef where
  name : MacroName
  tokens : List Tok
  deriving DecidableEq

/-- The Error directive record of the older module layout. -/
structure Error where
  message_start : Nat
  message_end : Nat
  tokens : List Tok
  deriving DecidableEq

/-- The Warning directive record of the older module layout. -/
structure Warning where
  message_start : Nat
  message_end : Nat
  tokens : List Tok
  deriving DecidableEq

/-- Directives the driver can commit. -/
inductive Directive
  | define (d : MacroDef)
  | undef (d : Undef)
  | error (d : Error)
  | warning (d : Warning)
  deriving DecidableEq

/-- State of Preprocessor: the reader, the statement-boundary flag, the
macro table (modelling the HashMap keyed by macro-name text, valued by the
index of the defining directive), and the committed directives. -/
structure PPState where
  reader : ReaderState
  can_directive_start : Bool
  macros : List (String × Nat)
  directives : List Directive
  deriving DecidableEq

/-- HashMap membership (by key). -/
def hmMem (m : List (String × Nat)) (k : String) : Bool :=
  match m with
  | [] => false
  | p :: rest => if p.1 = k then true else hmMem rest k

/-- HashMap lookup. -/
def hmGet (m : List (String × Nat)) (k : String) : Option Nat :=
  match m with
  | [] => none
  | p :: rest => if p.1 = k then some p.2 else hmGet rest k

/-- HashMap::insert: replaces the value of an existing key, otherwise adds
the pair. -/
def hmInsert (m : List (String × Nat)) (k : String) (v : Nat) : List (String × Nat) :=
  if hmMem m k then m.map (fun p => if p.1 = k then (k, v) else p) else m ++ [(k, v)]

/-- HashMap::remove. -/
def hmRemove (m : List (String × Nat)) (k : String) : List (String × Nat) :=
  m.filter (fun p => decide (p.1 ≠ k))

/-- The loop of skip_remaining_directive_tokens: read tokens until a close
paren whose next non-trivia token is a dot; returns the close paren
position.  The fuel argument only bounds the iteration count and is always
sufficient (each pass consumes at least one token and reading past the end
fails). -/
def skipRemLoop : Nat → ReaderState → Except PErr (Nat × ReaderState)
  | 0, _ => .error .unexpectedEof
  | fuel + 1, r =>
    match read_or_error r with
    | .error e => .error e
    | .ok (t, r1) =>
      if t = Tok.symbol .closeParen then
        let e := r.position
        let r2 := skip_whitespace_or_comment r1
        match read_symbol_if .dot r2 with
        | (some _, r3) => .ok (e, r3)
        | (none, r3) => skipRemLoop fuel r3
      else skipRemLoop fuel r1

/-- Preprocessor::skip_remaining_directive_tokens. -/
def skip_remaining_directive_tokens (r : ReaderState) : Except PErr (Nat × ReaderState) :=
  skipRemLoop (r.all.length + 1) r

/-- Preprocessor::read_macro_name: an atom or a variable, else invalid. -/
def read_macro_name (r : ReaderState) : Except PErr (MacroName × ReaderState) :=
  match read_atom r with
  | (some a, r1) => .ok (.atom a, r1)
  | (none, _) =>
    match read_variable r with
    | (some v, r1) => .ok (.var v, r1)
    | (none, _) => .error .invalidInput

/-- The loop of Preprocessor::read_macro_vars (fuel as in skipRemLoop). -/
def mvLoopOld : Nat → ReaderState → List Tok → Except PErr (List Tok × ReaderState)
  | 0, _, _ => .error .unexpectedEof
  | fuel + 1, r, acc =>
    let r0 := skip_whitespace_or_comment r
    match read_variable_or_error r0 with
    | .error e => .error e
    | .ok (v, r1) =>
      let r2 := skip_whitespace_or_comment r1
      match read_symbol_or_error r2 with
      | .error e => .error e
      | .ok (s, r3) =>
        if s = SymVal.comma then mvLoopOld fuel r3 (acc ++ [v])
        else if s = SymVal.closeParen then .ok (acc ++ [v], r3)
        else .error .invalidInput

/-- Preprocessor::read_macro_vars. -/
def read_macro_vars (r : ReaderState) : Except PErr (List Tok × ReaderState) :=
  mvLoopOld (r.all.length + 1) r []

/-- Preprocessor::read_define_directive. -/
def read_define_directive (r : ReaderState) : Except PErr (MacroDef × ReaderState) := do
  let r1 := skip_whitespace_or_comment r
  let r2 ← read_expected_symbol_or_error .openParen r1
  let r3 := skip_whitespace_or_comment r2
  let (name, r4) ← read_macro_name r3
  let r5 := skip_whitespace_or_comment r4
  let (s, r6) ← read_symbol_or_error r5
  let (vars, r7) ←
    if s = SymVal.comma then pure ((none : Option (List Tok)), r6)
    else if s = SymVal.openParen then do
      let (vs, r7) ← read_macro_vars r6
      pure (some vs, r7)
    else Except.error PErr.invalidInput
  let rs := r7.position
  let (re, r8) ← skip_remaining_directive_tokens r7
  let (toks, r9) := commit_transaction r8
  pure ({ name := name, vars := vars, replacement_start := rs, replacement_end := re,
          tokens := toks }, r9)

/-- Preprocessor::read_parenthesized_macro_name. -/
def read_parenthesized_macro_name (r : ReaderState) : Except PErr (MacroName × ReaderState) := do
  let r1 := skip_whitespace_or_comment r
  let r2 ← read_expected_symbol_or_error .openParen r1
  let r3 := skip_whitespace_or_comment r2
  let (name, r4) ← read_macro_name r3
  let r5 := skip_whitespace_or_comment r4
  let r6 ← read_expected_symbol_or_error .closeParen r5
  let r7 := skip_whitespace_or_comment r6
  let r8 ← read_expected_symbol_or_error .dot r7
  pure (name, r8)

/-- Preprocessor::read_undef_directive. -/
def read_undef_directive (r : ReaderState) : Except PErr (Undef × ReaderState) := do
  let (name, r1) ← read_parenthesized_macro_name r
  let (toks, r2) := commit_transaction r1
  pure ({ name := name, tokens := toks }, r2)

/-- Preprocessor::read_error_directive. -/
def read_error_directive (r : ReaderState) : Except PErr (Error × ReaderState) := do
  let r1 := skip_whitespace_or_comment r
  let r2 ← read_expected_symbol_or_error .openParen r1
  let ms := r2.position
  let (me, r3) ← skip_remaining_directive_tokens r2
  let (toks, r4) := commit_transaction r3
  pure ({ message_start := ms, message_end := me, tokens := toks }, r4)

/-- Preprocessor::read_warning_directive. -/
def read_warning_directive (r : ReaderState) : Except PErr (Warning × ReaderState) := do
  let r1 := skip_whitespace_or_comment r
  let r2 ← read_expected_symbol_or_error .openParen r1
  let ms := r2.position
  let (me, r3) ← skip_remaining_directive_tokens r2
  let (toks, r4) := commit_transaction r3
  pure ({ message_start := ms, message_end := me, tokens := toks }, r4)

/-- Preprocessor::try_read_directive: a hyphen then a keyword atom dispatch
in source order; the six keywords whose arms are unimplemented!() panic;
define inserts into and undef removes from the macro table; unknown
keywords fall through to no directive. -/
def try_read_directive (s : PPState) : Except PErr (Option Directive × PPState) :=
  match read_symbol_if .hyphen s.reader with
  | (none, r1) => .ok (none, { s with reader := r1 })
  | (some _, r1) =>
    match read_atom (skip_whitespace_or_comment r1) with
    | (none, r3) => .ok (none, { s with reader := r3 })
    | (some a, r3) =>
      if a = "include" then .error (.panicked "not implemented")
      else if a = "include_lib" then .error (.panicked "not implemented")
      else if a = "define" then
        match read_define_directive r3 with
        | .error e => .error e
        | .ok (d, r4) =>
          .ok (some (.define d),
            { s with
              reader := r4
              macros := hmInsert s.macros d.name.text s.directives.length })
      else if a = "undef" then
        match read_undef_directive r3 with
        | .error e => .error e
        | .ok (d, r4) =>
          .ok (some (.undef d),
            { s with
              reader := r4
              macros := hmRemove s.macros d.name.text })
      else if a = "ifdef" then .error (.panicked "not implemented")
      else if a = "ifndef" then .error (.panicked "not implemented")
      else if a = "else" then .error (.panicked "not implemented")
      else if a = "endif" then .error (.panicked "not implemented")
      else if a = "error" then
        match read_error_directive r3 with
        | .error e => .error e
        | .ok (d, r4) => .ok (some (.error d), { s with reader := r4 })
      else if a = "warning" then
        match read_warning_directive r3 with
        | .error e => .error e
        | .ok (d, r4) => .ok (some (.warning d), { s with reader := r4 })
      else .ok (none, { s with reader := r3 })

/-- Update of can_directive_start by an emitted token: trivia leaves it,
a symbol sets it to (symbol is dot), anything else clears it. -/
def tokFlag : Tok → Bool → Bool
  | .whitespace _, b => b
  | .comment _, b => b
  | .symbol s2, _ => decide (s2 = SymVal.dot)
  | _, _ => false

/-- The tail of Preprocessor::next_token: emit one token from the reader
and update the statement-boundary flag. -/
def emit_read (s : PPState) : Except PErr (Option Tok × PPState) :=
  match s.reader.read with
  | none => .ok (none, s)
  | some (t, r2) =>
    .ok (some t, { s with reader := r2, can_directive_start := tokFlag t s.can_directive_start })

/-- Preprocessor::next_token: at a statement boundary, open a transaction
and attempt a directive (recording it on success, aborting the transaction
on no-match), then emit the next token. -/
def next_token (s : PPState) : Except PErr (Option Tok × PPState) :=
  if s.can_directive_start then
    match try_read_directive { s with reader := start_transaction s.reader } with
    | .error e => .error e
    | .ok (some d, s2) => emit_read { s2 with directives := s2.directives ++ [d] }
    | .ok (none, s2) => emit_read { s2 with reader := abort_transaction s2.reader }
  else emit_read s

/-- Iterated pulls of the preprocessor until exhaustion, collecting the
emitted tokens (the Iterator instance).  Fuel bounds the number of pulls;
an exhausted fuel is reported as a distinguished panic so that an ok result
always denotes a completed run. -/
def runPP : Nat → PPState → Except PErr (List Tok × PPState)
  | 0, _ => .error (.panicked "out of fuel")
  | fuel + 1, s =>
    match next_token s with
    | .error e => .error e
    | .ok (none, s2) => .ok ([], s2)
    | .ok (some t, s2) =>
      match runPP fuel s2 with
      | .error e => .error e
      | .ok (ts, sf) => .ok (t :: ts, sf)

/-- Preprocessor::new on a token stream. -/
def initState (toks : List Tok) : PPState := ⟨⟨toks, 0, []⟩, true, [], []⟩

/-- States reachable by pulls of the preprocessor from a fresh state. -/
inductive Reachable : PPState → Prop
  | init (toks : List Tok) : Reachable (initState toks)
  | step {s : PPState} {t : Option Tok} {s2 : PPState} :
      Reachable s → next_token s = .ok (t, s2) → Reachable s2

/-- The macro table has at most one entry per key. -/
def keysNodup (m : List (String × Nat)) : Prop := (m.map Prod.fst).Nodup

/-- Membership characterization of hmMem. -/
theorem hmMem_iff (m : List (String × Nat)) (k : String) :
    hmMem m k = true ↔ k ∈ m.map Prod.fst := by
  induction m with
  | nil => simp [hmMem]
  | cons p rest ih =>
    by_cases hp : p.1 = k
    · simp [hmMem, hp]
    · simp [hmMem, hp, ih, Ne.symm hp]

/-- Insertion preserves key uniqueness. -/
theorem keysNodup_hmInsert (m : List (String × Nat)) (k : String) (v : Nat)
    (h : keysNodup m) : keysNodup (hmInsert m k v) := by
  unfold hmInsert
  split
  · have hkeys : (m.map (fun p => if p.1 = k then (k, v) else p)).map Prod.fst =
        m.map Prod.fst := by
      rw [List.map_map]
      apply List.map_congr_left
      intro p _
      by_cases hp : p.1 = k
      · simp [hp]
      · simp [hp]
    unfold keysNodup
    rw [hkeys]
    exact h
  · rename_i hm
    unfold keysNodup
    rw [List.map_append, List.nodup_append]
    refine ⟨h, List.nodup_singleton k, ?_⟩
    intro a ha hb
    simp only [List.map_cons, List.map_nil, List.mem_singleton] at hb
    subst hb
    exact hm ((hmMem_iff m a).mpr ha)

/-- Removal preserves key uniqueness. -/
theorem keysNodup_hmRemove (m : List (String × Nat)) (k : String)
    (h : keysNodup m) : keysNodup (hmRemove m k) := by
  unfold keysNodup hmRemove
  exact h.sublist (List.Sublist.map Prod.fst (List.filter_sublist m))

/-- The emitting tail of next_token leaves the macro table unchanged. -/
theorem emit_read_macros (s : PPState) (o : Option Tok) (s2 : PPState)
    (h : emit_read s = .ok (o, s2)) : s2.macros = s.macros := by
  unfold emit_read at h
  split at h
  · simp only [Except.ok.injEq, Prod.mk.injEq] at h
    rw [← h.2]
  · simp only [Except.ok.injEq, Prod.mk.injEq] at h
    rw [← h.2]

set_option maxHeartbeats 2000000 in
/-- A successful directive attempt either leaves the macro table unchanged,
inserts one binding, or removes one key. -/
theorem try_read_directive_macros (s : PPState) (o : Option Directive) (s2 : PPState)
    (h : try_read_directive s = .ok (o, s2)) :
    s2.macros = s.macros ∨ (∃ k v, s2.macros = hmInsert s.macros k v) ∨
      ∃ k, s2.macros = hmRemove s.macros k := by
  unfold try_read_directive at h
  repeat' split at h
  all_goals try exact Except.noConfusion h
  all_goals simp only [Except.ok.injEq, Prod.mk.injEq] at h
  all_goals obtain ⟨h1, h2⟩ := h
  all_goals subst h2
  all_goals first
    | exact Or.inl rfl
    | exact Or.inr (Or.inl ⟨_, _, rfl⟩)
    | exact Or.inr (Or.inr ⟨_, rfl⟩)

/-- One pull either leaves the macro table unchanged, inserts one binding,
or removes one key. -/
theorem next_token_macros (s : PPState) (t : Option Tok) (s2 : PPState)
    (h : next_token s = .ok (t, s2)) :
    s2.macros = s.macros ∨ (∃ k v, s2.macros = hmInsert s.macros k v) ∨
      ∃ k, s2.macros = hmRemove s.macros k := by
  unfold next_token at h
  split at h
  · cases hx : try_read_directive { s with reader := start_transaction s.reader } with
    | error e => rw [hx] at h; simp at h
    | ok p =>
      obtain ⟨o1, s3⟩ := p
      rw [hx] at h
      have hm3 := try_read_directive_macros _ _ _ hx
      cases o1 with
      | some d =>
        simp only at h
        have h2 := emit_read_macros _ _ _ h
        simp only at h2
        rw [h2]
        exact hm3
      | none =>
        simp only at h
        have h2 := emit_read_macros _ _ _ h
        simp only at h2
        rw [h2]
        exact hm3
  · have h2 := emit_read_macros _ _ _ h
    rw [h2]
    exact Or.inl rfl

/-- Every reachable preprocessor state has at most one macro-table entry per
macro name. -/
theorem reachable_keysNodup : ∀ s, Reachable s → keysNodup s.macros := by
  intro s h
  induction h with
  | init toks => simp [initState, keysNodup]
  | step _ hnt ih =>
    rcases next_token_macros _ _ _ hnt with h1 | ⟨k, v, h1⟩ | ⟨k, h1⟩
    · rw [h1]; exact ih
    · rw [h1]; exact keysNodup_hmInsert _ k v ih
    · rw [h1]; exact keysNodup_hmRemove _ k ih

/-- Token stream of -define(FOO, bar). followed by a bare reference FOO. -/
def defineFooToks : List Tok :=
  [.symbol .hyphen, .atom "define", .symbol .openParen, .atom "FOO", .symbol .comma,
   .whitespace " ", .atom "bar", .symbol .closeParen, .symbol .dot,
   .whitespace " ", .atom "FOO", .symbol .dot]

/-- Token stream of -ifdef(M). -/
def ifdefToks : List Tok :=
  [.symbol .hyphen, .atom "ifdef", .symbol .openParen, .atom "M",
   .symbol .closeParen, .symbol .dot]

/-- Token stream of -error("boom"). followed by an atom statement. -/
def errorToks : List Tok :=
  [.symbol .hyphen, .atom "error", .symbol .openParen, .str "boom",
   .symbol .closeParen, .symbol .dot, .whitespace " ", .atom "foo", .symbol .dot]

/-- Token stream of -define(M, a). then -define(M, b). -/
def redefToks : List Tok :=
  [.symbol .hyphen, .atom "define", .symbol .openParen, .atom "M", .symbol .comma,
   .atom "a", .symbol .closeParen, .symbol .dot, .whitespace " ",
   .symbol .hyphen, .atom "define", .symbol .openParen, .atom "M", .symbol .comma,
   .atom "b", .symbol .closeParen, .symbol .dot]

/-- C1 (code divergence): for -define(FOO, bar). FOO. the driver consumes
the directive (it is recorded and its tokens are not re-emitted, and the
macro table maps FOO to the definition), but the subsequent bare reference
FOO is emitted unchanged: no macro expansion happens anywhere in the
driver, so the replacement token bar never reaches the output. -/
theorem define_reference_not_expanded :
    (runPP 20 (initState defineFooToks)).map (fun p => (p.1, p.2.macros)) =
      .ok ([Tok.whitespace " ", Tok.atom "FOO", Tok.symbol .dot], [("FOO", 0)]) := by
  decide

/-- C5 (code divergence): pulling from a stream that begins with -ifdef(M).
panics at the unimplemented!() dispatch arm; no conditional stack exists. -/
theorem ifdef_unimplemented_panics :
    runPP 20 (initState ifdefToks) = .error (.panicked "not implemented") := by
  decide

/-- C8 (code divergence): a well-formed -error("boom"). directive does not
make the pull return an error; the directive is silently recorded in the
directives list and the stream continues with the following tokens. -/
theorem error_directive_recorded_not_raised :
    (runPP 20 (initState errorToks)).map (fun p => (p.1, p.2.directives)) =
      .ok ([Tok.whitespace " ", Tok.atom "foo", Tok.symbol .dot],
        [.error { message_start := 3, message_end := 4,
                  tokens := [.symbol .hyphen, .atom "error", .symbol .openParen,
                             .str "boom", .symbol .closeParen, .symbol .dot] }]) := by
  decide

/-- C7: the macro table of every reachable state has at most one active
definition per name, and a redefinition replaces the prior entry outright:
after -define(M, a). -define(M, b). the table maps M to the second
definition only. -/
theorem macro_table_single_definition :
    (∀ s, Reachable s → keysNodup s.macros)
  ∧ ((runPP 20 (initState redefToks)).map
        (fun p => (p.1, hmGet p.2.macros "M", p.2.directives)) =
      .ok ([Tok.whitespace " "], some 1,
        [.define { name := .atom "M", vars := none, replacement_start := 5,
                   replacement_end := 6,
                   tokens := [.symbol .hyphen, .atom "define", .symbol .openParen,
                              .atom "M", .symbol .comma, .atom "a",
                              .symbol .closeParen, .symbol .dot] },
         .define { name := .atom "M", vars := none, replacement_start := 14,
                   replacement_end := 15,
                   tokens := [.symbol .hyphen, .atom "define", .symbol .openParen,
                              .atom "M", .symbol .comma, .atom "b",
                              .symbol .closeParen, .symbol .dot] }])) := by
  exact ⟨reachable_keysNodup, by decide⟩

/-- C7 witness: the invariant at the initial state of the two-define
stream. -/
theorem macro_table_single_definition_witness :
    keysNodup (initState redefToks).macros := by
  exact macro_table_single_definition.1 (initState redefToks) (Reachable.init redefToks)

end preprocessor
